import Mathlib

/-!
Verification of the record/grading core of `src/cal.py` (student grade
calculator).  Python floats are embedded as rationals (`ℚ`), Python
dictionaries (insertion-ordered) as association lists, and the module-level
mutable globals (`student_records`, `current_student_marks`,
`current_student_name`) as an explicit `AppState` threaded through the
operations.  Each GUI handler that mutates core state is embedded as a
function `AppState → AppState × Except ValidationError α`; message boxes are
represented by the `Except` result.
-/

namespace GradeCalc

/-- Model of Python `str.strip()` on the underlying character list: drop
whitespace from both ends. -/
def stripChars (cs : List Char) : List Char :=
  ((cs.dropWhile Char.isWhitespace).reverse.dropWhile Char.isWhitespace).reverse

/-- Model of Python `str.strip()`. -/
def strip (s : String) : String := ⟨stripChars s.data⟩

/-- Value of a digit sequence read in base 10. -/
def digitsVal (cs : List Char) : Nat :=
  cs.foldl (fun n c => 10 * n + (c.toNat - '0'.toNat)) 0

/-- Unsigned part of a decimal literal: digits, optionally followed by a
single point and further digits, with at least one digit overall. -/
def parseUnsigned (cs : List Char) : Option ℚ :=
  let intPart := cs.takeWhile Char.isDigit
  match cs.dropWhile Char.isDigit with
  | [] => if intPart = [] then none else some (digitsVal intPart : ℚ)
  | '.' :: frac =>
    if frac.all Char.isDigit ∧ (intPart ≠ [] ∨ frac ≠ []) then
      some ((digitsVal intPart : ℚ) + (digitsVal frac : ℚ) / (10 : ℚ) ^ frac.length)
    else none
  | _ => none

/-- Model of Python `float()` as used on the (already stripped) mark input,
restricted to plain signed decimal literals; exponent notation and the
non-finite values `inf`/`nan` are outside this embedding (rationals cannot
represent them), so they are treated as parse failures. -/
def parseFloat (s : String) : Option ℚ :=
  match s.data with
  | '+' :: cs => parseUnsigned cs
  | '-' :: cs => Option.map (fun q => -q) (parseUnsigned cs)
  | cs => parseUnsigned cs

/-- Embedding of `GRADE_BOUNDARIES` from `src/cal.py` (lines 6-12), as its
insertion-ordered item list. -/
def GRADE_BOUNDARIES : List (String × ℚ) :=
  [("A", 90), ("B", 80), ("C", 70), ("D", 60), ("F", 0)]

/-- Stable descending insertion used by `sortDesc`. -/
def insertDesc (p : String × ℚ) : List (String × ℚ) → List (String × ℚ)
  | [] => [p]
  | q :: rest => if p.2 > q.2 then p :: q :: rest else q :: insertDesc p rest

/-- Model of Python `sorted(items, key=value, reverse=True)` (a stable
descending sort by the boundary value). -/
def sortDesc : List (String × ℚ) → List (String × ℚ)
  | [] => []
  | p :: rest => insertDesc p (sortDesc rest)

/-- The boundary-scanning loop of `get_grade` (lines 33-35): return the first
grade in the list whose lower bound is at most `avg`; `"N/A"` if the loop
falls through. -/
def scanBoundaries (avg : ℚ) : List (String × ℚ) → String
  | [] => "N/A"
  | (g, lower) :: rest => if avg ≥ lower then g else scanBoundaries avg rest

/-- Embedding of `get_grade` from `src/cal.py` (lines 23-36). -/
def get_grade : Option ℚ → String
  | none => "N/A"
  | some avg =>
    if avg > 100 then "A+"
    else if avg < 0 then "F"
    else scanBoundaries avg (sortDesc GRADE_BOUNDARIES)

/-- Embedding of `calculate_average` from `src/cal.py` (lines 38-43). -/
def calculate_average (marks : List (String × ℚ)) : ℚ :=
  if marks = [] then 0 else (marks.map Prod.snd).sum / (marks.length : ℚ)

/-- Python dict assignment `d[k] = v` on an insertion-ordered association
list: update in place if the key exists, else append at the end. -/
def dictInsert {α : Type} : List (String × α) → String → α → List (String × α)
  | [], k, v => [(k, v)]
  | p :: rest, k, v => if p.1 = k then (k, v) :: rest else p :: dictInsert rest k v

/-- Python dict read `d.get(k)` on an association list. -/
def dictLookup {α : Type} : List (String × α) → String → Option α
  | [], _ => none
  | p :: rest, k => if p.1 = k then some p.2 else dictLookup rest k

/-- One finalized roster entry: the value stored in `student_records`
(`{marks, average, grade}`). -/
structure StudentRecord where
  marks : List (String × ℚ)
  average : ℚ
  grade : String
deriving DecidableEq

/-- The module-level mutable globals of `src/cal.py` (lines 14-18). -/
structure AppState where
  student_records : List (String × StudentRecord)
  current_student_marks : List (String × ℚ)
  current_student_name : String
deriving DecidableEq

/-- The validation failures surfaced through message boxes in `src/cal.py`,
named as in the specification's error taxonomy. -/
inductive ValidationError where
  | EmptyName
  | EmptyField
  | NotNumeric
  | OutOfRange
  | NoActiveSession
  | NoMarks
deriving DecidableEq

/-- Success payload of `add_module_mark`: overwrite flag with the previous
value, plus the updated module count and ordered module-name list shown in
the status labels. -/
structure MarkAddedInfo where
  wasOverwrite : Bool
  previousValue : Option ℚ
  moduleCount : Nat
  moduleNames : List String
deriving DecidableEq

/-- The initial state: empty roster, no active session (lines 16-18). -/
def initState : AppState := ⟨[], [], ""⟩

/-- Embedding of `clear_all_fields` from `src/cal.py` (lines 90-99), restricted to core
state: resets the active session's marks and name. -/
def clear_all_fields (st : AppState) : AppState :=
  { st with current_student_marks := [], current_student_name := "" }

/-- Embedding of `start_new_student_session` from `src/cal.py` (lines 101-122); `rawName` is
the contents of the name entry.  Returns the module count shown in the
status label. -/
def start_new_student_session (st : AppState) (rawName : String) :
    AppState × Except ValidationError Nat :=
  let name := strip rawName
  if name = "" then (st, Except.error ValidationError.EmptyName)
  else
    let st1 :=
      if name ≠ st.current_student_name then { st with current_student_marks := [] }
      else st
    let st2 := { st1 with current_student_name := name }
    (st2, Except.ok st2.current_student_marks.length)

/-- Embedding of `add_module_mark` from `src/cal.py` (lines 124-162); `rawModule` and
`rawMark` are the contents of the module and mark entries. -/
def add_module_mark (st : AppState) (rawModule rawMark : String) :
    AppState × Except ValidationError MarkAddedInfo :=
  if st.current_student_name = "" then (st, Except.error ValidationError.NoActiveSession)
  else
    let moduleName := strip rawModule
    let markInput := strip rawMark
    if moduleName = "" ∨ markInput = "" then (st, Except.error ValidationError.EmptyField)
    else
      match parseFloat markInput with
      | none => (st, Except.error ValidationError.NotNumeric)
      | some mark =>
        if ¬ (0 ≤ mark ∧ mark ≤ 100) then (st, Except.error ValidationError.OutOfRange)
        else
          let prev := dictLookup st.current_student_marks moduleName
          let newMarks := dictInsert st.current_student_marks moduleName mark
          ({ st with current_student_marks := newMarks },
            Except.ok ⟨prev.isSome, prev, newMarks.length, newMarks.map Prod.fst⟩)

/-- Embedding of `finalize_student` from `src/cal.py` (lines 165-192): computes average and
grade, saves (a copy of) the marks in the roster, then resets the session
via `clear_all_fields`. -/
def finalize_student (st : AppState) : AppState × Except ValidationError StudentRecord :=
  if st.current_student_name = "" then (st, Except.error ValidationError.NoActiveSession)
  else if st.current_student_marks = [] then (st, Except.error ValidationError.NoMarks)
  else
    let avg := calculate_average st.current_student_marks
    let grade := get_grade (some avg)
    let record : StudentRecord := ⟨st.current_student_marks, avg, grade⟩
    let st1 :=
      { st with
        student_records := dictInsert st.student_records st.current_student_name record }
    (clear_all_fields st1, Except.ok record)

/-- Embedding of `view_live_report` from `src/cal.py` (lines 194-211): a pure query returning
the live average and grade; the state is returned unchanged because the
source assigns to none of the globals. -/
def view_live_report (st : AppState) : AppState × Except ValidationError (ℚ × String) :=
  if st.current_student_name = "" ∨ st.current_student_marks = [] then
    (st, Except.error ValidationError.NoActiveSession)
  else
    let avg := calculate_average st.current_student_marks
    (st, Except.ok (avg, get_grade (some avg)))

/-- The user-triggered actions on core state. -/
inductive Op where
  | start (rawName : String)
  | add (rawModule rawMark : String)
  | finalize
  | clear
  | preview

/-- State transition of one action (result discarded). -/
def applyOp (st : AppState) : Op → AppState
  | Op.start rawName => (start_new_student_session st rawName).1
  | Op.add rawModule rawMark => (add_module_mark st rawModule rawMark).1
  | Op.finalize => (finalize_student st).1
  | Op.clear => clear_all_fields st
  | Op.preview => (view_live_report st).1

/-- State reached from the initial empty state by a sequence of actions. -/
def runOps (ops : List Op) : AppState := ops.foldl applyOp initState

/-- The marks dictionary built from a fresh session by a sequence of
successful mark writes (each one a `dictInsert`, as performed by the success
path of `add_module_mark`). -/
def applyMarks (ps : List (String × ℚ)) : List (String × ℚ) :=
  ps.foldl (fun d p => dictInsert d p.1 p.2) []

/-- The last value written for key `k` in a sequence of (name, mark) writes. -/
def lastWritten (ps : List (String × ℚ)) (k : String) : Option ℚ :=
  (ps.reverse.find? (fun p => p.1 = k)).map Prod.snd

/-- Reference grade function following the specification's words: absent
average is `"N/A"`, above 100 is `"A+"`, below 0 is `"F"`, and otherwise the
boundary table `A ≥ 90, B ≥ 80, C ≥ 70, D ≥ 60, F ≥ 0` is scanned from the
highest minimum to the lowest, returning the first grade whose minimum is at
most the average. -/
def first_grade_at_most (avg : ℚ) : List (String × ℚ) → String
  | [] => "N/A"
  | (g, m) :: rest => if m ≤ avg then g else first_grade_at_most avg rest

/-- Reference definition of the grade function, written from the spec. -/
def grade_spec : Option ℚ → String
  | none => "N/A"
  | some avg =>
    if avg > 100 then "A+"
    else if avg < 0 then "F"
    else first_grade_at_most avg [("A", 90), ("B", 80), ("C", 70), ("D", 60), ("F", 0)]

/-- Well-formedness of one roster entry: non-empty student name, non-empty
marks all within `[0, 100]`, stored average equal to the mean of the stored
marks and within `[0, 100]`, and stored grade equal to `get_grade` of that
average and one of the five table letters. -/
def goodRecord (name : String) (r : StudentRecord) : Prop :=
  name ≠ "" ∧ r.marks ≠ [] ∧ (∀ p ∈ r.marks, 0 ≤ p.2 ∧ p.2 ≤ 100) ∧
  r.average = calculate_average r.marks ∧ 0 ≤ r.average ∧ r.average ≤ 100 ∧
  r.grade = get_grade (some r.average) ∧
  r.grade ∈ (["A", "B", "C", "D", "F"] : List String)

/-- Global state invariant: every roster entry is well formed and every
in-session mark is within `[0, 100]`. -/
def stateInv (st : AppState) : Prop :=
  (∀ p ∈ st.student_records, goodRecord p.1 p.2) ∧
  (∀ p ∈ st.current_student_marks, 0 ≤ p.2 ∧ p.2 ≤ 100)

/-! ## Helper lemmas -/

theorem sortDesc_boundaries :
    sortDesc GRADE_BOUNDARIES = [("A", 90), ("B", 80), ("C", 70), ("D", 60), ("F", 0)] := by
  decide

theorem scan_letter (q : ℚ) (h0 : 0 ≤ q) :
    scanBoundaries q (sortDesc GRADE_BOUNDARIES) ∈ (["A", "B", "C", "D", "F"] : List String) := by
  rw [sortDesc_boundaries]
  simp only [scanBoundaries]
  split_ifs <;> simp_all

theorem get_grade_eq_scan (q : ℚ) (h0 : 0 ≤ q) (h1 : q ≤ 100) :
    get_grade (some q) = scanBoundaries q (sortDesc GRADE_BOUNDARIES) := by
  simp only [get_grade]
  rw [if_neg (not_lt.mpr h1), if_neg (not_lt.mpr h0)]

theorem scan_eq_first (q : ℚ) (L : List (String × ℚ)) :
    scanBoundaries q L = first_grade_at_most q L := by
  induction L with
  | nil => rfl
  | cons p rest ih =>
    cases p with
    | mk g lower => simp only [scanBoundaries, first_grade_at_most, ge_iff_le, ih]

theorem get_grade_eq_grade_spec_all : ∀ x : Option ℚ, get_grade x = grade_spec x := by
  intro x
  cases x with
  | none => rfl
  | some q => simp only [get_grade, grade_spec, sortDesc_boundaries, scan_eq_first]

theorem average_nonneg_le (marks : List (String × ℚ)) (hne : marks ≠ [])
    (hb : ∀ p ∈ marks, 0 ≤ p.2 ∧ p.2 ≤ 100) :
    0 ≤ calculate_average marks ∧ calculate_average marks ≤ 100 := by
  unfold calculate_average
  rw [if_neg hne]
  have hlen : 0 < (marks.length : ℚ) := by
    exact_mod_cast List.length_pos.mpr hne
  constructor
  · apply div_nonneg _ hlen.le
    apply List.sum_nonneg
    intro x hx
    obtain ⟨p, hp, rfl⟩ := List.mem_map.mp hx
    exact (hb p hp).1
  · rw [div_le_iff₀ hlen]
    calc (marks.map Prod.snd).sum ≤ (marks.map Prod.snd).length • (100 : ℚ) := by
          apply List.sum_le_card_nsmul
          intro x hx
          obtain ⟨p, hp, rfl⟩ := List.mem_map.mp hx
          exact (hb p hp).2
      _ = 100 * (marks.length : ℚ) := by
          simp [nsmul_eq_mul, mul_comm]

theorem dictLookup_dictInsert {α : Type} (d : List (String × α)) (k0 : String) (v : α)
    (k : String) :
    dictLookup (dictInsert d k0 v) k = if k0 = k then some v else dictLookup d k := by
  induction d with
  | nil => simp [dictInsert, dictLookup]
  | cons p rest ih =>
    simp only [dictInsert]
    by_cases h1 : p.1 = k0
    · simp only [if_pos h1, dictLookup]
      by_cases h2 : k0 = k
      · simp [h2]
      · have h3 : ¬ p.1 = k := by rw [h1]; exact h2
        simp [h2, h3]
    · simp only [if_neg h1, dictLookup, ih]
      by_cases h2 : p.1 = k
      · have h3 : ¬ k0 = k := fun e => h1 (h2.trans e.symm)
        simp [h2, h3]
      · simp [h2]

theorem keys_dictInsert {α : Type} (d : List (String × α)) (k : String) (v : α) :
    (dictInsert d k v).map Prod.fst =
      if k ∈ d.map Prod.fst then d.map Prod.fst else d.map Prod.fst ++ [k] := by
  induction d with
  | nil => simp [dictInsert]
  | cons p rest ih =>
    simp only [dictInsert]
    by_cases h1 : p.1 = k
    · simp [h1]
    · have h1s : ¬ k = p.1 := fun e => h1 e.symm
      simp only [if_neg h1, List.map_cons, ih]
      by_cases h2 : k ∈ rest.map Prod.fst
      · simp [h2, List.mem_cons, h1s]
      · simp [h2, List.mem_cons, h1s]

theorem nodup_keys_dictInsert {α : Type} (d : List (String × α)) (k : String) (v : α)
    (h : (d.map Prod.fst).Nodup) : ((dictInsert d k v).map Prod.fst).Nodup := by
  rw [keys_dictInsert]
  split_ifs with hmem
  · exact h
  · simp [List.nodup_append, h, hmem]

theorem toFinset_keys_dictInsert {α : Type} (d : List (String × α)) (k : String) (v : α) :
    ((dictInsert d k v).map Prod.fst).toFinset = insert k (d.map Prod.fst).toFinset := by
  rw [keys_dictInsert]
  split_ifs with hmem
  · rw [Finset.insert_eq_self.mpr (List.mem_toFinset.mpr hmem)]
  · ext x
    simp [or_comm]

theorem dictInsert_forall {α : Type} (P : String × α → Prop) (d : List (String × α))
    (k : String) (v : α) (hd : ∀ p ∈ d, P p) (hkv : P (k, v)) :
    ∀ p ∈ dictInsert d k v, P p := by
  induction d with
  | nil =>
    intro p hp
    simp only [dictInsert, List.mem_singleton] at hp
    rw [hp]; exact hkv
  | cons q rest ih =>
    simp only [dictInsert]
    split_ifs with h1
    · intro p hp
      rcases List.mem_cons.mp hp with h | h
      · rw [h]; exact hkv
      · exact hd p (List.mem_cons_of_mem q h)
    · intro p hp
      rcases List.mem_cons.mp hp with h | h
      · rw [h]; exact hd q (List.mem_cons_self q rest)
      · exact ih (fun r hr => hd r (List.mem_cons_of_mem q hr)) p h

theorem foldl_dictInsert_lookup (ps : List (String × ℚ)) (d : List (String × ℚ))
    (k : String) :
    dictLookup (ps.foldl (fun d p => dictInsert d p.1 p.2) d) k =
      match ps.reverse.find? (fun p => p.1 = k) with
      | some p => some p.2
      | none => dictLookup d k := by
  induction ps generalizing d with
  | nil => simp
  | cons p rest ih =>
    simp only [List.foldl_cons, ih, List.reverse_cons, List.find?_append]
    cases hfind : rest.reverse.find? (fun q => decide (q.1 = k)) with
    | some q => simp
    | none =>
      simp only [Option.none_or]
      by_cases hp : p.1 = k
      · simp [List.find?, hp, dictLookup_dictInsert]
      · simp [List.find?, hp, dictLookup_dictInsert]

theorem applyMarks_lookup (ps : List (String × ℚ)) (k : String) :
    dictLookup (applyMarks ps) k = lastWritten ps k := by
  unfold applyMarks lastWritten
  rw [foldl_dictInsert_lookup]
  cases hfind : ps.reverse.find? (fun p => p.1 = k) with
  | some q => simp
  | none => simp [dictLookup]

theorem foldl_dictInsert_nodup (ps : List (String × ℚ)) (d : List (String × ℚ))
    (h : (d.map Prod.fst).Nodup) :
    (((ps.foldl (fun d p => dictInsert d p.1 p.2) d)).map Prod.fst).Nodup := by
  induction ps generalizing d with
  | nil => exact h
  | cons p rest ih =>
    simp only [List.foldl_cons]
    exact ih _ (nodup_keys_dictInsert d p.1 p.2 h)

theorem foldl_dictInsert_keysFinset (ps : List (String × ℚ)) (d : List (String × ℚ)) :
    (((ps.foldl (fun d p => dictInsert d p.1 p.2) d)).map Prod.fst).toFinset =
      (d.map Prod.fst).toFinset ∪ (ps.map Prod.fst).toFinset := by
  induction ps generalizing d with
  | nil => simp
  | cons p rest ih =>
    simp only [List.foldl_cons, ih, toFinset_keys_dictInsert, List.map_cons,
      List.toFinset_cons]
    ext x
    simp

theorem applyMarks_count (ps : List (String × ℚ)) :
    (applyMarks ps).length = (ps.map Prod.fst).toFinset.card := by
  have h1 : ((applyMarks ps).map Prod.fst).Nodup :=
    foldl_dictInsert_nodup ps [] (by simp)
  have h2 := foldl_dictInsert_keysFinset ps []
  simp only [List.map_nil, List.toFinset_nil, Finset.empty_union] at h2
  calc (applyMarks ps).length
      = ((applyMarks ps).map Prod.fst).length := by simp
    _ = ((applyMarks ps).map Prod.fst).toFinset.card :=
        (List.toFinset_card_of_nodup h1).symm
    _ = (ps.map Prod.fst).toFinset.card := by unfold applyMarks; rw [h2]

/-! ## Frame and atomicity lemmas for the state operations -/

theorem add_module_mark_records (st : AppState) (rawModule rawMark : String) :
    (add_module_mark st rawModule rawMark).1.student_records = st.student_records := by
  unfold add_module_mark
  by_cases h1 : st.current_student_name = ""
  · simp [h1]
  · simp only [if_neg h1]
    by_cases h2 : strip rawModule = "" ∨ strip rawMark = ""
    · simp [h2]
    · simp only [if_neg h2]
      cases hp : parseFloat (strip rawMark) with
      | none => simp
      | some mark =>
        by_cases h3 : ¬ (0 ≤ mark ∧ mark ≤ 100)
        · simp [h3]
        · simp [h3]

theorem start_confirm (st : AppState) (rawName : String)
    (h : strip rawName ≠ "") (h2 : strip rawName = st.current_student_name) :
    (start_new_student_session st rawName).1 = st := by
  obtain ⟨recs, marks, name⟩ := st
  simp only [AppState.mk.injEq] at h2 ⊢
  unfold start_new_student_session
  rw [if_neg h]
  simp [h2]

theorem start_newname (st : AppState) (rawName : String)
    (h : strip rawName ≠ "") (h2 : strip rawName ≠ st.current_student_name) :
    (start_new_student_session st rawName).1 =
      ⟨st.student_records, [], strip rawName⟩ := by
  unfold start_new_student_session
  simp [if_neg h, h2]

theorem stateInv_start (st : AppState) (rawName : String) (h : stateInv st) :
    stateInv (start_new_student_session st rawName).1 := by
  obtain ⟨hr, hm⟩ := h
  unfold start_new_student_session
  by_cases h1 : strip rawName = ""
  · simp only [if_pos h1]
    exact ⟨hr, hm⟩
  · simp only [if_neg h1]
    by_cases h2 : strip rawName ≠ st.current_student_name
    · simp only [if_pos h2]
      exact ⟨hr, by simp⟩
    · simp only [if_neg h2]
      exact ⟨hr, hm⟩

theorem stateInv_add (st : AppState) (rawModule rawMark : String) (h : stateInv st) :
    stateInv (add_module_mark st rawModule rawMark).1 := by
  obtain ⟨hr, hm⟩ := h
  unfold add_module_mark
  by_cases h1 : st.current_student_name = ""
  · simp only [if_pos h1]
    exact ⟨hr, hm⟩
  · simp only [if_neg h1]
    by_cases h2 : strip rawModule = "" ∨ strip rawMark = ""
    · simp only [if_pos h2]
      exact ⟨hr, hm⟩
    · simp only [if_neg h2]
      cases hp : parseFloat (strip rawMark) with
      | none => exact ⟨hr, hm⟩
      | some mark =>
        by_cases h3 : ¬ (0 ≤ mark ∧ mark ≤ 100)
        · simp only [if_pos h3]
          exact ⟨hr, hm⟩
        · simp only [if_neg h3]
          push_neg at h3
          refine ⟨hr, ?_⟩
          exact dictInsert_forall _ st.current_student_marks (strip rawModule) mark hm
            ⟨h3.1, h3.2⟩

theorem stateInv_finalize (st : AppState) (h : stateInv st) :
    stateInv (finalize_student st).1 := by
  obtain ⟨hr, hm⟩ := h
  unfold finalize_student
  by_cases h1 : st.current_student_name = ""
  · simp only [if_pos h1]
    exact ⟨hr, hm⟩
  · simp only [if_neg h1]
    by_cases h2 : st.current_student_marks = []
    · simp only [if_pos h2]
      exact ⟨hr, hm⟩
    · simp only [if_neg h2]
      refine ⟨?_, by simp [clear_all_fields]⟩
      simp only [clear_all_fields]
      have havg := average_nonneg_le st.current_student_marks h2 hm
      apply dictInsert_forall (fun p => goodRecord p.1 p.2) st.student_records
        st.current_student_name _ hr
      refine ⟨h1, h2, hm, rfl, havg.1, havg.2, rfl, ?_⟩
      show get_grade (some (calculate_average st.current_student_marks)) ∈ _
      rw [get_grade_eq_scan _ havg.1 havg.2]
      exact scan_letter _ havg.1

theorem stateInv_preview (st : AppState) (h : stateInv st) :
    stateInv (view_live_report st).1 := by
  unfold view_live_report
  by_cases h1 : st.current_student_name = "" ∨ st.current_student_marks = []
  · simp only [if_pos h1]
    exact h
  · simp only [if_neg h1]
    exact h

theorem stateInv_applyOp (st : AppState) (op : Op) (h : stateInv st) :
    stateInv (applyOp st op) := by
  cases op with
  | start rawName => exact stateInv_start st rawName h
  | add rawModule rawMark => exact stateInv_add st rawModule rawMark h
  | finalize => exact stateInv_finalize st h
  | clear => exact ⟨h.1, by simp [applyOp, clear_all_fields]⟩
  | preview => exact stateInv_preview st h

theorem stateInv_foldl (ops : List Op) (st : AppState) (h : stateInv st) :
    stateInv (ops.foldl applyOp st) := by
  induction ops generalizing st with
  | nil => exact h
  | cons op rest ih =>
    simp only [List.foldl_cons]
    exact ih _ (stateInv_applyOp st op h)

theorem stateInv_runOps (ops : List Op) : stateInv (runOps ops) :=
  stateInv_foldl ops initState ⟨by simp [initState], by simp [initState]⟩

/-! ## Claim theorems -/

/-- C1: `get_grade` equals the reference definition written from the spec
(`"N/A"` for an absent average, `"A+"` above 100, `"F"` below 0, otherwise
the first grade, scanning the boundary table from highest minimum to lowest,
whose minimum is at most the average), and the boundary inputs
0, 59.999, 60, 69.999, 70, 79.999, 80, 89.999, 90, 100 yield
F, F, D, D, C, C, B, B, A, A, while 100.5 yields `"A+"`, -5 yields `"F"`,
and an absent average yields `"N/A"`. -/
theorem get_grade_matches_reference :
    (∀ x : Option ℚ, get_grade x = grade_spec x) ∧
    get_grade (some 0) = "F" ∧
    get_grade (some (59999 / 1000)) = "F" ∧
    get_grade (some 60) = "D" ∧
    get_grade (some (69999 / 1000)) = "D" ∧
    get_grade (some 70) = "C" ∧
    get_grade (some (79999 / 1000)) = "C" ∧
    get_grade (some 80) = "B" ∧
    get_grade (some (89999 / 1000)) = "B" ∧
    get_grade (some 90) = "A" ∧
    get_grade (some 100) = "A" ∧
    get_grade (some (201 / 2)) = "A+" ∧
    get_grade (some (-5)) = "F" ∧
    get_grade none = "N/A" := by
  refine ⟨get_grade_eq_grade_spec_all, ?_, ?_, ?_, ?_, ?_, ?_, ?_, ?_, ?_, ?_, ?_, ?_, ?_⟩ <;>
    norm_num [get_grade, scanBoundaries, sortDesc, insertDesc, GRADE_BOUNDARIES]

/-- C2: `calculate_average` returns 0 on an empty marks mapping, and
otherwise the arithmetic mean, sum of values over count of values, with no
rounding; concretely the average of `{}` is 0, of `{m: 100}` is 100, and of
`{a: 80, b: 60}` is 70. -/
theorem calculate_average_spec :
    calculate_average [] = 0 ∧
    calculate_average [("m", (100 : ℚ))] = 100 ∧
    calculate_average [("a", (80 : ℚ)), ("b", 60)] = 70 ∧
    ∀ marks : List (String × ℚ), marks ≠ [] →
      calculate_average marks = (marks.map Prod.snd).sum / (marks.length : ℚ) := by
  refine ⟨rfl, ?_, ?_, ?_⟩
  · simp [calculate_average]
  · simp [calculate_average]
    norm_num
  · intro marks h
    simp [calculate_average, h]

/-- Witness for C2 at the marks mapping `{a: 80, b: 60}`. -/
theorem calculate_average_spec_witness :
    ([("a", (80 : ℚ)), ("b", 60)] : List (String × ℚ)) ≠ [] ∧
    calculate_average [("a", (80 : ℚ)), ("b", 60)] =
      (([("a", (80 : ℚ)), ("b", 60)] : List (String × ℚ)).map Prod.snd).sum /
        ((([("a", (80 : ℚ)), ("b", 60)] : List (String × ℚ)).length : ℚ)) :=
  ⟨by decide, calculate_average_spec.2.2.2 _ (by decide)⟩

/-- C9: under the boundary table in force, the fall-through `"N/A"` after the
boundary scan is unreachable for every average in `[0, 100]`: the scan itself
returns one of the five letters, `get_grade` returns exactly the scan's
result there, and some boundary's minimum is at most the average. -/
theorem grade_fallthrough_unreachable (q : ℚ) (h0 : 0 ≤ q) (h1 : q ≤ 100) :
    scanBoundaries q (sortDesc GRADE_BOUNDARIES) ≠ "N/A" ∧
    scanBoundaries q (sortDesc GRADE_BOUNDARIES) ∈ (["A", "B", "C", "D", "F"] : List String) ∧
    get_grade (some q) = scanBoundaries q (sortDesc GRADE_BOUNDARIES) ∧
    ∃ p ∈ sortDesc GRADE_BOUNDARIES, p.2 ≤ q := by
  have hmem := scan_letter q h0
  refine ⟨?_, hmem, get_grade_eq_scan q h0 h1, ⟨("F", 0), ?_, h0⟩⟩
  · intro e
    rw [e] at hmem
    simp at hmem
  · rw [sortDesc_boundaries]
    simp

/-- Witness for C9 at the average 50. -/
theorem grade_fallthrough_unreachable_witness :
    (0 : ℚ) ≤ 50 ∧ (50 : ℚ) ≤ 100 ∧
      scanBoundaries 50 (sortDesc GRADE_BOUNDARIES) ≠ "N/A" :=
  ⟨by norm_num, by norm_num,
    (grade_fallthrough_unreachable 50 (by norm_num) (by norm_num)).1⟩

/-- C10: in every state reachable by any sequence of operations from the
initial empty state, every roster record has a non-empty student name,
non-empty marks all in `[0, 100]`, a stored average equal to the mean of its
own marks and lying in `[0, 100]`, and a stored grade equal to `get_grade`
of that average and equal to one of A, B, C, D, F (so the defensive `"A+"`,
below-zero `"F"` and `"N/A"` branches are never exercised by finalize). -/
theorem roster_records_well_formed (ops : List Op) :
    ∀ p ∈ (runOps ops).student_records, goodRecord p.1 p.2 :=
  (stateInv_runOps ops).1

/-- Witness for C10: the record finalized for Alice after one mark write. -/
theorem roster_records_well_formed_witness :
    goodRecord "Alice"
      ⟨[("Math", (80 : ℚ))], calculate_average [("Math", (80 : ℚ))],
        get_grade (some (calculate_average [("Math", (80 : ℚ))]))⟩ := by
  apply roster_records_well_formed [Op.start "Alice", Op.add "Math" "80", Op.finalize]
    ("Alice", ⟨[("Math", (80 : ℚ))], calculate_average [("Math", (80 : ℚ))],
      get_grade (some (calculate_average [("Math", (80 : ℚ))]))⟩)
  have hrun : runOps [Op.start "Alice", Op.add "Math" "80", Op.finalize] =
      ⟨[("Alice", ⟨[("Math", (80 : ℚ))], calculate_average [("Math", (80 : ℚ))],
        get_grade (some (calculate_average [("Math", (80 : ℚ))]))⟩)], [], ""⟩ := rfl
  rw [hrun]
  exact List.mem_singleton.mpr rfl

/-- C3: for every active session with a non-empty name and at least one mark,
finalize succeeds with a record holding the session's marks, their average
and grade; the roster entry under the student name is exactly that record
(an entire overwrite of any previous entry, never a merge); the active
session is cleared completely; a subsequent `view_live_report` fails with
`NoActiveSession`; and no later `add_module_mark` can touch the stored
roster (the record's marks are an independent copy of the session's). -/
theorem finalize_student_spec (st : AppState)
    (hname : st.current_student_name ≠ "") (hmarks : st.current_student_marks ≠ []) :
    (finalize_student st).2 = Except.ok
      ⟨st.current_student_marks, calculate_average st.current_student_marks,
        get_grade (some (calculate_average st.current_student_marks))⟩ ∧
    dictLookup (finalize_student st).1.student_records st.current_student_name =
      some ⟨st.current_student_marks, calculate_average st.current_student_marks,
        get_grade (some (calculate_average st.current_student_marks))⟩ ∧
    (finalize_student st).1.current_student_name = "" ∧
    (finalize_student st).1.current_student_marks = [] ∧
    (view_live_report (finalize_student st).1).2 =
      Except.error ValidationError.NoActiveSession ∧
    (∀ rawModule rawMark : String,
      (add_module_mark (finalize_student st).1 rawModule rawMark).1.student_records =
        (finalize_student st).1.student_records) := by
  have hfin : finalize_student st =
      (⟨dictInsert st.student_records st.current_student_name
          ⟨st.current_student_marks, calculate_average st.current_student_marks,
            get_grade (some (calculate_average st.current_student_marks))⟩, [], ""⟩,
        Except.ok ⟨st.current_student_marks, calculate_average st.current_student_marks,
          get_grade (some (calculate_average st.current_student_marks))⟩) := by
    unfold finalize_student
    rw [if_neg hname, if_neg hmarks]
    rfl
  rw [hfin]
  refine ⟨rfl, ?_, rfl, rfl, ?_, ?_⟩
  · rw [dictLookup_dictInsert]
    simp
  · simp [view_live_report]
  · intro rawModule rawMark
    exact add_module_mark_records _ rawModule rawMark

/-- Witness for C3: finalizing Alice with marks `{Math: 80, Eng: 90}` yields
a roster record with average 85 and grade B, and a subsequent live report
fails with `NoActiveSession`. -/
theorem finalize_student_spec_witness :
    (finalize_student ⟨[], [("Math", (80 : ℚ)), ("Eng", 90)], "Alice"⟩).2 =
      Except.ok ⟨[("Math", (80 : ℚ)), ("Eng", 90)], 85, "B"⟩ ∧
    (view_live_report
      (finalize_student ⟨[], [("Math", (80 : ℚ)), ("Eng", 90)], "Alice"⟩).1).2 =
      Except.error ValidationError.NoActiveSession := by
  have h := finalize_student_spec ⟨[], [("Math", (80 : ℚ)), ("Eng", 90)], "Alice"⟩
    (by decide) (by decide)
  have havg : calculate_average [("Math", (80 : ℚ)), ("Eng", 90)] = 85 := by
    simp [calculate_average]
    norm_num
  have hgr : get_grade (some (85 : ℚ)) = "B" := by
    norm_num [get_grade, scanBoundaries, sortDesc, insertDesc, GRADE_BOUNDARIES]
  refine ⟨?_, h.2.2.2.2.1⟩
  rw [h.1, havg, hgr]

/-- C4: `add_module_mark` fails with `NoActiveSession` when no session is
active, with `EmptyField` when either stripped input is empty, with
`NotNumeric` when the mark does not parse as a number, with `OutOfRange`
when the parsed mark lies outside `[0, 100]`, and succeeds otherwise. -/
theorem add_module_mark_error_conditions (st : AppState) (rawModule rawMark : String) :
    (st.current_student_name = "" →
      (add_module_mark st rawModule rawMark).2 =
        Except.error ValidationError.NoActiveSession) ∧
    (st.current_student_name ≠ "" → (strip rawModule = "" ∨ strip rawMark = "") →
      (add_module_mark st rawModule rawMark).2 =
        Except.error ValidationError.EmptyField) ∧
    (st.current_student_name ≠ "" → strip rawModule ≠ "" → strip rawMark ≠ "" →
      parseFloat (strip rawMark) = none →
      (add_module_mark st rawModule rawMark).2 =
        Except.error ValidationError.NotNumeric) ∧
    (∀ m : ℚ, st.current_student_name ≠ "" → strip rawModule ≠ "" → strip rawMark ≠ "" →
      parseFloat (strip rawMark) = some m → ¬ (0 ≤ m ∧ m ≤ 100) →
      (add_module_mark st rawModule rawMark).2 =
        Except.error ValidationError.OutOfRange) ∧
    (∀ m : ℚ, st.current_student_name ≠ "" → strip rawModule ≠ "" → strip rawMark ≠ "" →
      parseFloat (strip rawMark) = some m → 0 ≤ m → m ≤ 100 →
      ∃ info : MarkAddedInfo,
        (add_module_mark st rawModule rawMark).2 = Except.ok info) := by
  refine ⟨?_, ?_, ?_, ?_, ?_⟩
  · intro h1
    simp [add_module_mark, h1]
  · intro h1 h2
    rcases h2 with h2 | h2 <;> simp [add_module_mark, h1, h2]
  · intro h1 h2 h3 hp
    have hor : ¬ (strip rawModule = "" ∨ strip rawMark = "") := by tauto
    simp [add_module_mark, h1, hor, hp]
  · intro m h1 h2 h3 hp hrange
    have hor : ¬ (strip rawModule = "" ∨ strip rawMark = "") := by tauto
    simp [add_module_mark, h1, hor, hp, hrange]
  · intro m h1 h2 h3 hp h4 h5
    have hor : ¬ (strip rawModule = "" ∨ strip rawMark = "") := by tauto
    refine ⟨⟨(dictLookup st.current_student_marks (strip rawModule)).isSome,
      dictLookup st.current_student_marks (strip rawModule),
      (dictInsert st.current_student_marks (strip rawModule) m).length,
      (dictInsert st.current_student_marks (strip rawModule) m).map Prod.fst⟩, ?_⟩
    simp [add_module_mark, h1, hor, hp, h4, h5]

/-- Witness for C4: marks `"101"` and `"-1"` fail with `OutOfRange`, `"abc"`
fails with `NotNumeric`, and a missing session fails with
`NoActiveSession`. -/
theorem add_module_mark_error_conditions_witness :
    (add_module_mark ⟨[], [], "Alice"⟩ "Math" "abc").2 =
      Except.error ValidationError.NotNumeric ∧
    (add_module_mark ⟨[], [], "Alice"⟩ "Math" "101").2 =
      Except.error ValidationError.OutOfRange ∧
    (add_module_mark ⟨[], [], "Alice"⟩ "Math" "-1").2 =
      Except.error ValidationError.OutOfRange ∧
    (add_module_mark ⟨[], [], ""⟩ "Math" "80").2 =
      Except.error ValidationError.NoActiveSession := by
  refine ⟨?_, ?_, ?_, ?_⟩
  · exact (add_module_mark_error_conditions ⟨[], [], "Alice"⟩ "Math" "abc").2.2.1
      (by decide) (by decide) (by decide) (by decide)
  · exact (add_module_mark_error_conditions ⟨[], [], "Alice"⟩ "Math" "101").2.2.2.1 101
      (by decide) (by decide) (by decide) (by decide) (by decide)
  · exact (add_module_mark_error_conditions ⟨[], [], "Alice"⟩ "Math" "-1").2.2.2.1 (-1)
      (by decide) (by decide) (by decide) (by decide) (by decide)
  · exact (add_module_mark_error_conditions ⟨[], [], ""⟩ "Math" "80").1 rfl

/-- C5: a sequence of successful mark writes from a fresh session yields a
module count equal to the number of distinct module names written and, for
every name, the stored mark is the last value written for it; a successful
write to an existing module key overwrites it, reports the overwrite with
the previous value, and is not blocked. -/
theorem add_mark_last_write_wins :
    (∀ ps : List (String × ℚ),
      (applyMarks ps).length = (ps.map Prod.fst).toFinset.card ∧
      ∀ k, dictLookup (applyMarks ps) k = lastWritten ps k) ∧
    (∀ (st : AppState) (rawModule rawMark : String) (m prev : ℚ),
      st.current_student_name ≠ "" → strip rawModule ≠ "" → strip rawMark ≠ "" →
      parseFloat (strip rawMark) = some m → 0 ≤ m → m ≤ 100 →
      dictLookup st.current_student_marks (strip rawModule) = some prev →
      (add_module_mark st rawModule rawMark).2 = Except.ok
        ⟨true, some prev,
          (dictInsert st.current_student_marks (strip rawModule) m).length,
          (dictInsert st.current_student_marks (strip rawModule) m).map Prod.fst⟩ ∧
      (add_module_mark st rawModule rawMark).1.current_student_marks =
        dictInsert st.current_student_marks (strip rawModule) m ∧
      dictLookup (add_module_mark st rawModule rawMark).1.current_student_marks
        (strip rawModule) = some m) := by
  constructor
  · intro ps
    exact ⟨applyMarks_count ps, fun k => applyMarks_lookup ps k⟩
  · intro st rawModule rawMark m prev h1 h2 h3 hp h4 h5 hprev
    have hor : ¬ (strip rawModule = "" ∨ strip rawMark = "") := by tauto
    have hstate : add_module_mark st rawModule rawMark =
        ({ st with current_student_marks :=
            dictInsert st.current_student_marks (strip rawModule) m },
          Except.ok ⟨(dictLookup st.current_student_marks (strip rawModule)).isSome,
            dictLookup st.current_student_marks (strip rawModule),
            (dictInsert st.current_student_marks (strip rawModule) m).length,
            (dictInsert st.current_student_marks (strip rawModule) m).map Prod.fst⟩) := by
      simp [add_module_mark, h1, hor, hp, h4, h5]
    rw [hstate]
    refine ⟨by simp [hprev], rfl, ?_⟩
    show dictLookup (dictInsert st.current_student_marks (strip rawModule) m)
      (strip rawModule) = some m
    rw [dictLookup_dictInsert]
    simp

/-- Witness for C5: writing Math twice then Eng gives two modules with the
last Math value, and the overwrite is reported with the previous value. -/
theorem add_mark_last_write_wins_witness :
    (applyMarks [("Math", (80 : ℚ)), ("Math", 90), ("Eng", 70)]).length =
      (([("Math", (80 : ℚ)), ("Math", 90), ("Eng", 70)] :
        List (String × ℚ)).map Prod.fst).toFinset.card ∧
    dictLookup (applyMarks [("Math", (80 : ℚ)), ("Math", 90), ("Eng", 70)]) "Math" =
      lastWritten [("Math", (80 : ℚ)), ("Math", 90), ("Eng", 70)] "Math" ∧
    (add_module_mark ⟨[], [("Math", (80 : ℚ))], "Alice"⟩ "Math" "90").2 = Except.ok
      ⟨true, some 80,
        (dictInsert [("Math", (80 : ℚ))] "Math" 90).length,
        (dictInsert [("Math", (80 : ℚ))] "Math" 90).map Prod.fst⟩ := by
  refine ⟨(add_mark_last_write_wins.1 _).1, (add_mark_last_write_wins.1 _).2 "Math", ?_⟩
  exact (add_mark_last_write_wins.2 ⟨[], [("Math", (80 : ℚ))], "Alice"⟩ "Math" "90" 90 80
    (by decide) (by decide) (by decide) (by decide) (by decide) (by decide) (by decide)).1

/-- C6: when the stripped name equals the active session's name,
`start_new_student_session` is idempotent (no marks are lost); when it
differs (including from the no-session state) it begins a brand-new session
with the marks mapping cleared, discarding unsaved marks silently; applying
it twice with the same input equals applying it once. -/
theorem start_session_idempotent_or_reset (st : AppState) (rawName : String)
    (h : strip rawName ≠ "") :
    (strip rawName = st.current_student_name →
      (start_new_student_session st rawName).1 = st) ∧
    (strip rawName ≠ st.current_student_name →
      (start_new_student_session st rawName).1 =
        ⟨st.student_records, [], strip rawName⟩) ∧
    (start_new_student_session (start_new_student_session st rawName).1 rawName).1 =
      (start_new_student_session st rawName).1 := by
  refine ⟨start_confirm st rawName h, start_newname st rawName h, ?_⟩
  by_cases h2 : strip rawName = st.current_student_name
  · rw [start_confirm st rawName h h2, start_confirm st rawName h h2]
  · rw [start_newname st rawName h h2]
    exact start_confirm _ rawName h rfl

/-- Witness for C6: starting Alice, adding Math 80, then starting Bob leaves
the unsaved mark mapping empty (the Math mark is discarded). -/
theorem start_session_idempotent_or_reset_witness :
    (start_new_student_session
      (add_module_mark (start_new_student_session initState "Alice").1 "Math" "80").1
      "Bob").1.current_student_marks = [] := by
  have h := (start_session_idempotent_or_reset
    (add_module_mark (start_new_student_session initState "Alice").1 "Math" "80").1 "Bob"
    (by decide)).2.1 (by decide)
  rw [h]

/-- C7: every failing operation is atomic: whenever
`start_new_student_session`, `add_module_mark`, `finalize_student` or
`view_live_report` returns a validation error, the whole state (roster and
active session) is exactly as before the call; failures are values, not
exceptions, so no call can crash. -/
theorem failing_operations_atomic :
    (∀ (st : AppState) (rawName : String) (e : ValidationError),
      (start_new_student_session st rawName).2 = Except.error e →
      (start_new_student_session st rawName).1 = st) ∧
    (∀ (st : AppState) (rawModule rawMark : String) (e : ValidationError),
      (add_module_mark st rawModule rawMark).2 = Except.error e →
      (add_module_mark st rawModule rawMark).1 = st) ∧
    (∀ (st : AppState) (e : ValidationError),
      (finalize_student st).2 = Except.error e → (finalize_student st).1 = st) ∧
    (∀ (st : AppState) (e : ValidationError),
      (view_live_report st).2 = Except.error e → (view_live_report st).1 = st) := by
  refine ⟨?_, ?_, ?_, ?_⟩
  · intro st rawName e
    unfold start_new_student_session
    by_cases h1 : strip rawName = ""
    · simp [h1]
    · simp [h1]
  · intro st rawModule rawMark e
    unfold add_module_mark
    by_cases h1 : st.current_student_name = ""
    · simp [h1]
    · simp only [if_neg h1]
      by_cases h2 : strip rawModule = "" ∨ strip rawMark = ""
      · simp [h2]
      · simp only [if_neg h2]
        cases hp : parseFloat (strip rawMark) with
        | none => simp
        | some mark =>
          by_cases h3 : ¬ (0 ≤ mark ∧ mark ≤ 100)
          · simp [h3]
          · simp [h3]
  · intro st e
    unfold finalize_student
    by_cases h1 : st.current_student_name = ""
    · simp [h1]
    · simp only [if_neg h1]
      by_cases h2 : st.current_student_marks = []
      · simp [h2]
      · simp [h2]
  · intro st e
    unfold view_live_report
    by_cases h1 : st.current_student_name = "" ∨ st.current_student_marks = []
    · simp [h1]
    · simp [h1]

/-- Witness for C7: an `add_module_mark` with no active session fails and
leaves the initial state unchanged. -/
theorem failing_operations_atomic_witness :
    (add_module_mark ⟨[], [], ""⟩ "Math" "80").1 = ⟨[], [], ""⟩ :=
  failing_operations_atomic.2.1 ⟨[], [], ""⟩ "Math" "80"
    ValidationError.NoActiveSession rfl

/-- C8: `view_live_report` never changes the state (read-only with respect to
roster and active session); it fails with `NoActiveSession` when no name is
confirmed or no marks are present, and otherwise returns the average and
grade computed from the session's marks. -/
theorem view_live_report_read_only (st : AppState) :
    (view_live_report st).1 = st ∧
    ((st.current_student_name = "" ∨ st.current_student_marks = []) →
      (view_live_report st).2 = Except.error ValidationError.NoActiveSession) ∧
    (st.current_student_name ≠ "" → st.current_student_marks ≠ [] →
      (view_live_report st).2 = Except.ok
        (calculate_average st.current_student_marks,
          get_grade (some (calculate_average st.current_student_marks)))) := by
  refine ⟨?_, ?_, ?_⟩
  · unfold view_live_report
    split_ifs <;> rfl
  · intro h
    unfold view_live_report
    rw [if_pos h]
  · intro h1 h2
    have h3 : ¬ (st.current_student_name = "" ∨ st.current_student_marks = []) := by
      tauto
    unfold view_live_report
    rw [if_neg h3]

/-- Witness for C8: the live report of Alice's session `{Math: 80, Eng: 90}`
returns the computed average and grade. -/
theorem view_live_report_read_only_witness :
    (view_live_report ⟨[], [("Math", (80 : ℚ)), ("Eng", 90)], "Alice"⟩).2 = Except.ok
      (calculate_average [("Math", (80 : ℚ)), ("Eng", 90)],
        get_grade (some (calculate_average [("Math", (80 : ℚ)), ("Eng", 90)]))) :=
  (view_live_report_read_only ⟨[], [("Math", (80 : ℚ)), ("Eng", 90)], "Alice"⟩).2.2
    (by decide) (by decide)

end GradeCalc
